import Mathlib

/-!
Verification of the locator resolution and enumeration engine of the `skew`
repository (`src/skew/arn/__init__.py`).

The file shallowly embeds the code: pure helpers become Lean functions, the
shared mutable context list of the generator chain becomes explicit state
passing (`Except` carries the context visible at the point an exception is
raised), and the external collaborators (resource-type registry, account
configuration store, backend enumerators) become an explicit environment
record.
-/

set_option autoImplicit false

namespace Skew

/-! ## A model of the regular-expression fragment used by the matcher

`ARNComponent.match` compiles its pattern with Python's `re.compile` and
keeps the candidates for which `regex.search(choice)` finds a match
anywhere in the candidate (substring search, not full match).

We model the fragment of Python regular expressions consisting of literal
characters, the metacharacter `.` (any character) and the postfix Kleene
star `*`.  `reCompile` returns `none` both for patterns that are genuine
`re.compile` errors in Python (a `*` with nothing to repeat, as in `**`,
or a doubled quantifier as in `a**`) and for patterns that use
metacharacters outside the modelled fragment (`+ ? [ ] ( ) { } | ^ $ \`);
every pattern on which `reCompile` succeeds is matched exactly as Python
matches it.
-/

/-- A token of the modelled regular-expression fragment: the
metacharacter `.` (matches any character) or a literal character. -/
inductive RTok where
  | dot : RTok
  | lit : Char → RTok
deriving DecidableEq

/-- A compiled regular expression: a sequence of tokens, each optionally
carrying a Kleene star. -/
abbrev Regex := List (RTok × Bool)

/-- Does one token match one character? -/
def tokMatch : RTok → Char → Bool
  | RTok.dot, _ => true
  | RTok.lit c, d => c == d

/-- Python regular-expression metacharacters that lie outside the
modelled fragment; `reCompile` refuses them. -/
def metaChars : List Char := ['+', '?', '[', ']', '(', ')', '{', '}', '|', '^', '$', '\\']

/-- Compile the character list of a pattern, accumulating compiled tokens
in reverse.  A `*` attaches a star to the preceding token; a `*` with no
preceding token, or attached to an already starred token, is an error
(Python: `nothing to repeat` / `multiple repeat`). -/
def reCompileAux : List Char → Regex → Option Regex
  | [], acc => some acc.reverse
  | ch :: rest, acc =>
    if ch = '*' then
      match acc with
      | [] => none
      | (_, true) :: _ => none
      | (t, false) :: acc2 => reCompileAux rest ((t, true) :: acc2)
    else if ch = '.' then
      reCompileAux rest ((RTok.dot, false) :: acc)
    else if metaChars.contains ch then
      none
    else
      reCompileAux rest ((RTok.lit ch, false) :: acc)

/-- `re.compile` on the modelled fragment. -/
def reCompile (pat : String) : Option Regex :=
  reCompileAux pat.toList []

/-- Does the regular expression match some prefix of `s`?  A starred token
may consume any number of matching characters. -/
def matchHere : Regex → List Char → Bool
  | [], _ => true
  | (_, false) :: _, [] => false
  | (t, false) :: rest, c :: cs => tokMatch t c && matchHere rest cs
  | (t, true) :: rest, s =>
    (List.range (s.length + 1)).any (fun k =>
      (s.take k).all (tokMatch t) && matchHere rest (s.drop k))

/-- `regex.search(s)`: does the regular expression match starting at some
position of `s`?  (The match need not extend to the end of `s`.) -/
def reSearch (r : Regex) (s : String) : Bool :=
  (List.range (s.toList.length + 1)).any (fun i => matchHere r (s.toList.drop i))

/-- `ARNComponent.match(pattern, context)` from the source, with the
subclass-supplied `choices(context)` result passed in as `cs`: the literal
pattern `*` is replaced by `.*`, the pattern is compiled (`none` models a
raised `re.error`), and the candidates for which a substring search
succeeds are kept in their original order. -/
def componentMatch (cs : List String) (pattern : String) : Option (List String) :=
  let regex := if pattern = "*" then ".*" else pattern
  (reCompile regex).map (fun r => cs.filter (fun c => reSearch r c))

/-! ### Basic facts about the matcher -/

theorem reCompile_dotstar : reCompile ".*" = some [(RTok.dot, true)] := rfl

theorem reSearch_dotstar (s : String) : reSearch [(RTok.dot, true)] s = true := by
  apply List.any_eq_true.mpr
  refine ⟨0, List.mem_range.mpr (Nat.succ_pos _), ?_⟩
  show matchHere [(RTok.dot, true)] (s.toList.drop 0) = true
  apply List.any_eq_true.mpr
  exact ⟨0, List.mem_range.mpr (Nat.succ_pos _), by simp [matchHere]⟩

theorem componentMatch_star (cs : List String) : componentMatch cs "*" = some cs := by
  simp only [componentMatch, if_pos rfl, reCompile_dotstar, Option.map_some']
  refine congrArg some (List.filter_eq_self.mpr ?_)
  intro c _
  exact reSearch_dotstar c

/-- The compiled form of a pattern made of literal characters only. -/
def litRegex (l : List Char) : Regex :=
  l.map (fun c => (RTok.lit c, false))

/-- A pattern character is plain when it is neither of the two modelled
metacharacters and not one of the refused ones. -/
def plainChar (ch : Char) : Bool :=
  !(ch = '*' || ch = '.' || metaChars.contains ch)

theorem reCompileAux_plain (l : List Char) (acc : Regex) (h : l.all plainChar) :
    reCompileAux l acc = some (acc.reverse ++ litRegex l) := by
  induction l generalizing acc with
  | nil => simp [reCompileAux, litRegex]
  | cons c cs ih =>
    rw [List.all_cons, Bool.and_eq_true] at h
    have hc : plainChar c := h.1
    have hcs : cs.all plainChar := h.2
    have h1 : ¬ (c = '*') := by
      intro hch; rw [hch] at hc; simp [plainChar] at hc
    have h2 : ¬ (c = '.') := by
      intro hch; rw [hch] at hc; simp [plainChar] at hc
    have h3 : metaChars.contains c = false := by
      simp only [plainChar, Bool.not_eq_true', Bool.or_eq_false_iff] at hc
      exact hc.2
    have h3' : c ∉ metaChars := by simpa using h3
    simp [reCompileAux, h1, h2, h3, h3', ih _ hcs, litRegex]

theorem reCompile_plain (pat : String) (h : pat.toList.all plainChar) :
    reCompile pat = some (litRegex pat.toList) := by
  simpa [reCompile] using reCompileAux_plain pat.toList [] h

theorem matchHere_lit (l : List Char) (s : List Char) :
    matchHere (litRegex l) s = true ↔ ∃ t, s = l ++ t := by
  induction l generalizing s with
  | nil => simp [litRegex, matchHere]
  | cons c cs ih =>
    cases s with
    | nil =>
      simp [litRegex, matchHere]
    | cons d ds =>
      simp only [litRegex, List.map_cons, matchHere, Bool.and_eq_true, beq_iff_eq, tokMatch]
      constructor
      · rintro ⟨hcd, hm⟩
        obtain ⟨t, ht⟩ := (ih ds).mp hm
        exact ⟨t, by simp [hcd.symm, ht, litRegex]⟩
      · rintro ⟨t, ht⟩
        simp only [List.cons_append, List.cons.injEq] at ht
        refine ⟨ht.1.symm, (ih ds).mpr ⟨t, ?_⟩⟩
        exact ht.2

/-- Substring-search semantics for a literal pattern: the search succeeds
exactly when the pattern occurs contiguously somewhere in the string. -/
theorem reSearch_lit (l : List Char) (s : String) :
    reSearch (litRegex l) s = true ↔ ∃ t₁ t₂, s.toList = t₁ ++ l ++ t₂ := by
  unfold reSearch
  rw [List.any_eq_true]
  constructor
  · rintro ⟨i, _, hm⟩
    obtain ⟨t, ht⟩ := (matchHere_lit l _).mp hm
    refine ⟨s.toList.take i, t, ?_⟩
    calc s.toList = s.toList.take i ++ s.toList.drop i := (List.take_append_drop i s.toList).symm
    _ = s.toList.take i ++ l ++ t := by rw [ht, List.append_assoc]
  · rintro ⟨t₁, t₂, ht⟩
    refine ⟨t₁.length, List.mem_range.mpr ?_, ?_⟩
    · have : t₁.length ≤ s.toList.length := by
        rw [ht]; simp
      omega
    · apply (matchHere_lit l _).mpr
      refine ⟨t₂, ?_⟩
      rw [ht, List.append_assoc, List.drop_left]

/-! ## Python string splitting

Helpers mirroring the Python `str.split` forms used by the source:
`s.split(sep, maxsplit)` (used with `':'` and maxsplit 6 in
`ARN._build_components_from_string`, and with maxsplit 1 in
`Resource._split_resource`) and plain `s.split(sep)` (used with `'|'`). -/

/-- `s.split(sep, maxsplit)` on character lists: split at the leftmost
separator, at most `n` times; the remainder is kept whole.  Like Python,
splitting a string with no separator yields the one-element list `[s]`. -/
def pySplitLimit (sep : Char) : Nat → List Char → List (List Char)
  | 0, cs => [cs]
  | n + 1, cs =>
    if sep ∈ cs then
      cs.takeWhile (· ≠ sep) :: pySplitLimit sep n ((cs.dropWhile (· ≠ sep)).tail)
    else [cs]

/-- `s.split(sep, 1)` as a pair: the part before the first separator and
the part after it (the separator must occur). -/
def splitFirst (sep : Char) (cs : List Char) : List Char × List Char :=
  (cs.takeWhile (· ≠ sep), (cs.dropWhile (· ≠ sep)).tail)

/-- `sep.join(parts)` on character lists. -/
def joinSep (sep : Char) : List (List Char) → List Char
  | [] => []
  | [x] => x
  | x :: y :: xs => x ++ sep :: joinSep sep (y :: xs)

theorem pySplitLimit_ne_nil (sep : Char) (n : Nat) (cs : List Char) :
    pySplitLimit sep n cs ≠ [] := by
  cases n with
  | zero => simp [pySplitLimit]
  | succ n =>
    by_cases h : sep ∈ cs <;> simp [pySplitLimit, h]

/-- A list containing its separator is the part before the first
separator, the separator, then the rest. -/
theorem takeWhile_sep_tail (sep : Char) (cs : List Char) (h : sep ∈ cs) :
    cs.takeWhile (· ≠ sep) ++ sep :: (cs.dropWhile (· ≠ sep)).tail = cs := by
  induction cs with
  | nil => simp at h
  | cons c cs ih =>
    by_cases hc : c = sep
    · subst hc; simp [List.takeWhile, List.dropWhile]
    · have h' : sep ∈ cs := by
        rcases List.mem_cons.mp h with h1 | h2
        · exact absurd h1.symm hc
        · exact h2
      simpa [List.takeWhile, List.dropWhile, hc] using ih h'

/-- Splitting and rejoining is the identity, for every split limit. -/
theorem joinSep_pySplitLimit (sep : Char) (n : Nat) (cs : List Char) :
    joinSep sep (pySplitLimit sep n cs) = cs := by
  induction n generalizing cs with
  | zero => simp [pySplitLimit, joinSep]
  | succ n ih =>
    by_cases h : sep ∈ cs
    · rw [pySplitLimit, if_pos h]
      have hne := pySplitLimit_ne_nil sep n ((cs.dropWhile (· ≠ sep)).tail)
      obtain ⟨y, ys, hys⟩ := List.exists_cons_of_ne_nil hne
      rw [hys, joinSep, ← hys, ih]
      exact takeWhile_sep_tail sep cs h
    · rw [pySplitLimit, if_neg h, joinSep]

theorem count_takeWhile_ne (sep : Char) (cs : List Char) :
    (cs.takeWhile (· ≠ sep)).count sep = 0 := by
  apply List.count_eq_zero.mpr
  intro hmem
  have := List.mem_takeWhile_imp hmem
  simp at this

/-- The number of parts produced by a limited split. -/
theorem length_pySplitLimit (sep : Char) (n : Nat) (cs : List Char) :
    (pySplitLimit sep n cs).length = min n (cs.count sep) + 1 := by
  induction n generalizing cs with
  | zero => simp [pySplitLimit]
  | succ n ih =>
    by_cases h : sep ∈ cs
    · rw [pySplitLimit, if_pos h]
      have hcount : cs.count sep = ((cs.dropWhile (· ≠ sep)).tail).count sep + 1 := by
        conv_lhs => rw [← takeWhile_sep_tail sep cs h]
        rw [List.count_append, count_takeWhile_ne]
        simp [List.count_cons]
      simp only [List.length_cons, ih, hcount]
      omega
    · have hcount : cs.count sep = 0 := List.count_eq_zero.mpr h
      rw [pySplitLimit, if_neg h]
      simp [hcount]

/-! ## Data model

An `ArnData` holds the six component patterns of an `ARN` (one per level,
in the fixed order scheme, provider, service, region, account, resource)
plus the optional filter-expression string split off at `|`
(`jmespath.compile` itself is an external collaborator; we keep the raw
query string).

The external collaborators used by the engine are collected in `Env`:
`skew.resources.all_services`, `skew.resources.all_types`, the account ids
from `get_config()['accounts']` (read once at `Account` construction), and
the resource-type registry behind `skew.resources.find_resource_class`.
A backend enumerator is called with the region and account taken from the
context and the resource-id filter from the split resource pattern; it may
itself raise (`Except.error`), which is opaque to the core. -/

structure ArnData where
  scheme : String
  provider : String
  service : String
  region : String
  account : String
  resource : String
  query : Option String
deriving DecidableEq

/-- An external backend enumerator class: `enumerate(arn, region, account,
resource_id, aws_creds)` returns the list of live resource records
(modelled as opaque strings) or raises. -/
structure Backend where
  run : String → String → Option String → Except Unit (List String)

/-- The external collaborators of the engine. -/
structure Env where
  all_services : String → List String
  all_types : String → String → List String
  accounts : List String
  registry : String → Option Backend

/-- Modelled from the spec: `skew.resources.find_resource_class` lives in
`skew/resources/__init__.py`, which is not under `src/`.  Per the spec
(§4.6, §7), a matched resource type with no registered backend surfaces as
a distinct "unresolvable resource type" condition that is reported but
does not abort sibling branches; accordingly the lookup yields `none` for
an unregistered path and `Resource.enumerate` reports the condition and
continues with the remaining matched types. -/
def find_resource_class (env : Env) (path : String) : Option Backend :=
  env.registry path

/-! ## The six components

`choices(context)` per component, from the source.  A Python `context`
argument is `Option (List String)`: `none` is Python `None` (the default
used by top-level queries) and `some []` is an empty list; both are falsy,
so both take the no-context fallback branch of `if context:`.  A `none`
result of a `choices` function models a raised exception (an `IndexError`
from `context[1]` / `context[2]` on a too-short truthy context). -/

/-- A Python value used as a dictionary key in `Region.choices`: either a
string or the `Service` component object itself (the source stores
`self._arn.service` — the object, not its `.pattern`). -/
inductive PyVal where
  | str : String → PyVal
  | svcComponent : PyVal
deriving DecidableEq

/-- `dict.get(key, default)` for the string-keyed region table.
`ARNComponent` defines neither `__eq__` nor `__hash__`, so an
`ARNComponent` instance compares by identity and can never equal any
string key: looking up `PyVal.svcComponent` always returns the default. -/
def pyDictGet (m : List (String × List String)) (k : PyVal) (d : List String) : List String :=
  match k with
  | PyVal.str s => ((m.find? (fun p => p.1 = s)).map Prod.snd).getD d
  | PyVal.svcComponent => d

namespace Scheme

/-- `Scheme.choices`: the single supported scheme, independent of context. -/
def choices : List String := ["arn"]

end Scheme

namespace Provider

/-- `Provider.choices`: the single supported provider. -/
def choices : List String := ["aws"]

end Provider

namespace Service

/-- `Service.choices`: the services of the provider at `context[1]`, or of
the provider component's own pattern when no (truthy) context is given. -/
def choices (env : Env) (arn : ArnData) (context : Option (List String)) :
    Option (List String) :=
  match context with
  | some (x :: xs) => ((x :: xs)[1]?).map env.all_services
  | _ => some (env.all_services arn.provider)

end Service

namespace Region

/-- `Region._all_region_names`. -/
def all_region_names : List String :=
  ["us-east-1", "us-west-1", "us-west-2", "eu-west-1", "eu-central-1",
   "ap-southeast-1", "ap-southeast-2", "ap-northeast-1", "sa-east-1"]

/-- `Region._region_names_limited`. -/
def region_names_limited : List String :=
  ["us-east-1", "us-west-2", "eu-west-1", "ap-southeast-1",
   "ap-southeast-2", "ap-northeast-1"]

/-- `Region._no_region_required`. -/
def no_region_required : List String := [""]

/-- `Region._service_region_map`. -/
def service_region_map : List (String × List String) :=
  [("redshift", region_names_limited),
   ("glacier", region_names_limited),
   ("kinesis", region_names_limited),
   ("iam", no_region_required),
   ("route53", no_region_required),
   ("lambda", ["us-east-1", "us-west-2", "eu-west-1", "ap-northeast-1"])]

/-- `Region.choices`: with a truthy context, look up the service string at
`context[2]` in the region table; otherwise the source sets
`service = self._arn.service` — the `Service` component object itself, not
its pattern — and looks that object up. -/
def choices (_arn : ArnData) (context : Option (List String)) :
    Option (List String) :=
  match context with
  | some (x :: xs) =>
    ((x :: xs)[2]?).map (fun sv => pyDictGet service_region_map (PyVal.str sv) all_region_names)
  | _ => some (pyDictGet service_region_map PyVal.svcComponent all_region_names)

end Region

namespace Account

/-- `Account.choices`: the account ids known to the configuration store,
ignoring context. -/
def choices (env : Env) : List String := env.accounts

end Account

namespace Resource

/-- `Resource._split_resource`: split a resource pattern into its
resource-type and optional resource-id portions, trying `/` first, then
`:`, else no id. -/
def split_resource (resource : String) : String × Option String :=
  if '/' ∈ resource.toList then
    let p := splitFirst '/' resource.toList
    (String.mk p.1, some (String.mk p.2))
  else if ':' ∈ resource.toList then
    let p := splitFirst ':' resource.toList
    (String.mk p.1, some (String.mk p.2))
  else (resource, none)

/-- `Resource.choices`: the resource types registered for
(`self._arn.provider.pattern`, service), where the service is
`context[2]` for a truthy context and the service component's own pattern
otherwise; an empty answer falls back to the single wildcard sentinel. -/
def choices (env : Env) (arn : ArnData) (context : Option (List String)) :
    Option (List String) :=
  match context with
  | some (x :: xs) =>
    ((x :: xs)[2]?).map (fun sv =>
      let ts := env.all_types arn.provider sv
      if ts.isEmpty then ["*"] else ts)
  | _ =>
    some (let ts := env.all_types arn.provider arn.service
          if ts.isEmpty then ["*"] else ts)

/-- `Resource.match`: match only the resource-type portion of the
pattern against the candidate set. -/
def matchFn (cs : List String) (pattern : String) : Option (List String) :=
  componentMatch cs (split_resource pattern).1

end Resource

/-! ### `matches(context)` per component

`ARNComponent.matches(context)` is `self.match(self.pattern, context)`;
each subclass contributes its `choices`.  `none` models a raised
exception (a failed regex compile or an `IndexError` inside `choices`). -/

def schemeMatches (arn : ArnData) (_context : List String) : Option (List String) :=
  componentMatch Scheme.choices arn.scheme

def providerMatches (arn : ArnData) (_context : List String) : Option (List String) :=
  componentMatch Provider.choices arn.provider

def serviceMatches (env : Env) (arn : ArnData) (context : List String) : Option (List String) :=
  (Service.choices env arn (some context)).bind (fun cs => componentMatch cs arn.service)

def regionMatches (arn : ArnData) (context : List String) : Option (List String) :=
  (Region.choices arn (some context)).bind (fun cs => componentMatch cs arn.region)

def accountMatches (env : Env) (arn : ArnData) (_context : List String) : Option (List String) :=
  componentMatch (Account.choices env) arn.account

def resourceMatches (env : Env) (arn : ArnData) (context : List String) : Option (List String) :=
  (Resource.choices env arn (some context)).bind (fun cs => Resource.matchFn cs arn.resource)

/-! ## Locator construction and representation -/

/-- The `'|'` handling of `ARN._build_components_from_string`:
`arn_string, query = arn_string.split('|')` succeeds only when there is
exactly one `|` (more pieces make the unpacking raise `ValueError`). -/
def splitQuery (s : String) : Option (String × Option String) :=
  if '|' ∈ s.toList then
    if s.toList.count '|' = 1 then
      some (String.mk (s.toList.takeWhile (· ≠ '|')),
            some (String.mk ((s.toList.dropWhile (· ≠ '|')).tail)))
    else none
  else some (s, none)

/-- `ARN._build_components_from_string`: split off the optional filter
expression at `|`, split the remainder on `:` with maxsplit 6, and build
the components by zipping the six component classes with the tokens,
padding the shorter side with `'*'` (`zip_longest`).  When the split
yields more than six tokens, `zip_longest` pads the six-element class
list with the string `'*'` and `c(n, self)` raises `TypeError`
(`'str' object is not callable`); `none` models the raised error. -/
def buildComponents (s : String) : Option ArnData :=
  match splitQuery s with
  | none => none
  | some (body, q) =>
    let toks := pySplitLimit ':' 6 body.toList
    if toks.length ≤ 6 then
      let pat := fun i => ((toks[i]?).map String.mk).getD "*"
      some ⟨pat 0, pat 1, pat 2, pat 3, pat 4, pat 5, q⟩
    else none

/-- `ARN.__repr__`: `':'.join(str(c) for c in self._components)`, and
`str` of a component is its pattern. -/
def arnRepr (d : ArnData) : String :=
  String.mk (joinSep ':'
    [d.scheme.toList, d.provider.toList, d.service.toList,
     d.region.toList, d.account.toList, d.resource.toList])

/-! ## Enumeration

Each level's `enumerate(context)` is a Python generator over the shared
mutable `context` list: it computes `self.matches(context)`, then for each
match appends the match, yields everything the next level produces, and
pops.  There is no `try/finally`, so when a deeper level raises, the
`context.pop()` after the inner loop is skipped and the exception
propagates with the context as it stood.

The embedding passes the context explicitly.  A fully consumed traversal
returns `Except.ok` with the produced records, the reported conditions
(the log), and the context as the generators leave it; a raised exception
returns `Except.error` carrying the shared context at the moment of the
raise.  A `none` from `matches` (regex compile error or `IndexError`)
raises before anything is pushed. -/

/-- The observable outcome of a fully consumed `enumerate` call:
the records produced, the conditions reported to the log, and the state
of the shared context list afterwards. -/
structure EnumOk where
  resources : List String
  reports : List String
  ctx : List String
deriving DecidableEq

/-- `'.'.join([provider, service_name, resource_type])`. -/
def resourcePath (p sv rt : String) : String :=
  p ++ "." ++ sv ++ "." ++ rt

/-- The distinct reported condition for a matched resource type with no
registered backend. -/
def unresolvableReport (path : String) : String :=
  "unresolvable resource type: " ++ path

/-- The loop body of `Resource.enumerate`: for each matched resource type
resolve the backend class for `provider.service.resource_type` and extend
the result list with its records; an unregistered type is reported and
the loop continues; a raising backend aborts the loop.  Returns the
records and the reports. -/
def resourceLoop (env : Env) (p sv r a : String) (rid : Option String) :
    List String → Except Unit (List String × List String)
  | [] => Except.ok ([], [])
  | rt :: rest =>
    match find_resource_class env (resourcePath p sv rt) with
    | none =>
      match resourceLoop env p sv r a rid rest with
      | Except.error e => Except.error e
      | Except.ok (rs, reps) =>
        Except.ok (rs, unresolvableReport (resourcePath p sv rt) :: reps)
    | some b =>
      match b.run r a rid with
      | Except.error _ => Except.error ()
      | Except.ok recs =>
        match resourceLoop env p sv r a rid rest with
        | Except.error e => Except.error e
        | Except.ok (rs, reps) => Except.ok (recs ++ rs, reps)

/-- `Resource.enumerate(context)`: unpack
`_, provider, service_name, region, account = context` (a context of any
other length raises `ValueError`), split the own pattern into resource
type and id, and run the terminal fan-out over the matched resource
types.  The context is read, never pushed or popped. -/
def resourceEnumerate (env : Env) (arn : ArnData) (ctx : List String) :
    Except (List String) EnumOk :=
  match ctx with
  | [_, p, sv, r, a] =>
    let rid := (Resource.split_resource arn.resource).2
    match resourceMatches env arn ctx with
    | none => Except.error ctx
    | some rts =>
      match resourceLoop env p sv r a rid rts with
      | Except.error _ => Except.error ctx
      | Except.ok (rs, reps) => Except.ok ⟨rs, reps, ctx⟩
  | _ => Except.error ctx

/-- The push/recurse/pop loop shared by the five generator levels,
parameterized by the next level's `enumerate`.  For each match: append it
to the shared context, drain the next level, then pop.  A propagating
exception skips the pop. -/
def levelLoop (next : List String → Except (List String) EnumOk) :
    List String → List String → Except (List String) EnumOk
  | [], ctx => Except.ok ⟨[], [], ctx⟩
  | m :: rest, ctx =>
    match next (ctx ++ [m]) with
    | Except.error e => Except.error e
    | Except.ok out =>
      match levelLoop next rest out.ctx.dropLast with
      | Except.error e => Except.error e
      | Except.ok out2 =>
        Except.ok ⟨out.resources ++ out2.resources, out.reports ++ out2.reports, out2.ctx⟩

/-- `Account.enumerate`. -/
def accountEnumerate (env : Env) (arn : ArnData) (ctx : List String) :
    Except (List String) EnumOk :=
  match accountMatches env arn ctx with
  | none => Except.error ctx
  | some ms => levelLoop (resourceEnumerate env arn) ms ctx

/-- `Region.enumerate`. -/
def regionEnumerate (env : Env) (arn : ArnData) (ctx : List String) :
    Except (List String) EnumOk :=
  match regionMatches arn ctx with
  | none => Except.error ctx
  | some ms => levelLoop (accountEnumerate env arn) ms ctx

/-- `Service.enumerate`. -/
def serviceEnumerate (env : Env) (arn : ArnData) (ctx : List String) :
    Except (List String) EnumOk :=
  match serviceMatches env arn ctx with
  | none => Except.error ctx
  | some ms => levelLoop (regionEnumerate env arn) ms ctx

/-- `Provider.enumerate`. -/
def providerEnumerate (env : Env) (arn : ArnData) (ctx : List String) :
    Except (List String) EnumOk :=
  match providerMatches arn ctx with
  | none => Except.error ctx
  | some ms => levelLoop (serviceEnumerate env arn) ms ctx

/-- `Scheme.enumerate`. -/
def schemeEnumerate (env : Env) (arn : ArnData) (ctx : List String) :
    Except (List String) EnumOk :=
  match schemeMatches arn ctx with
  | none => Except.error ctx
  | some ms => levelLoop (providerEnumerate env arn) ms ctx

/-- `ARN.__iter__`: start the traversal at the scheme level with a fresh
empty context. -/
def arnIter (env : Env) (arn : ArnData) : Except (List String) EnumOk :=
  schemeEnumerate env arn []

/-! ### Context preservation on the error-free path -/

theorem levelLoop_ok_ctx (next : List String → Except (List String) EnumOk)
    (hnext : ∀ c out, next c = Except.ok out → out.ctx = c) :
    ∀ ms ctx out, levelLoop next ms ctx = Except.ok out → out.ctx = ctx := by
  intro ms
  induction ms with
  | nil =>
    intro ctx out h
    simp only [levelLoop] at h
    cases h
    rfl
  | cons m rest ih =>
    intro ctx out h
    simp only [levelLoop] at h
    cases hn : next (ctx ++ [m]) with
    | error e => rw [hn] at h; cases h
    | ok out1 =>
      simp only [hn] at h
      cases hl : levelLoop next rest out1.ctx.dropLast with
      | error e => rw [hl] at h; cases h
      | ok out2 =>
        simp only [hl] at h
        cases h
        have h1 : out1.ctx = ctx ++ [m] := hnext _ _ hn
        have h2 : out2.ctx = out1.ctx.dropLast := ih _ _ hl
        simp [h2, h1]

theorem resourceEnumerate_ok_ctx (env : Env) (arn : ArnData) :
    ∀ ctx out, resourceEnumerate env arn ctx = Except.ok out → out.ctx = ctx := by
  intro ctx out h
  unfold resourceEnumerate at h
  rcases ctx with _ | ⟨a, _ | ⟨b, _ | ⟨c, _ | ⟨d, _ | ⟨e, _ | ⟨f, tl⟩⟩⟩⟩⟩⟩ <;>
    simp only at h <;>
    try cases h
  cases hm : resourceMatches env arn [a, b, c, d, e] with
  | none => rw [hm] at h; cases h
  | some rts =>
    simp only [hm] at h
    cases hl : resourceLoop env b c d e (Resource.split_resource arn.resource).2 rts with
    | error u => rw [hl] at h; cases h
    | ok pr => simp only [hl] at h; cases h; rfl

theorem accountEnumerate_ok_ctx (env : Env) (arn : ArnData) :
    ∀ ctx out, accountEnumerate env arn ctx = Except.ok out → out.ctx = ctx := by
  intro ctx out h
  unfold accountEnumerate at h
  cases hm : accountMatches env arn ctx with
  | none => rw [hm] at h; cases h
  | some ms =>
    rw [hm] at h
    exact levelLoop_ok_ctx _ (resourceEnumerate_ok_ctx env arn) ms ctx out h

theorem regionEnumerate_ok_ctx (env : Env) (arn : ArnData) :
    ∀ ctx out, regionEnumerate env arn ctx = Except.ok out → out.ctx = ctx := by
  intro ctx out h
  unfold regionEnumerate at h
  cases hm : regionMatches arn ctx with
  | none => rw [hm] at h; cases h
  | some ms =>
    rw [hm] at h
    exact levelLoop_ok_ctx _ (accountEnumerate_ok_ctx env arn) ms ctx out h

theorem serviceEnumerate_ok_ctx (env : Env) (arn : ArnData) :
    ∀ ctx out, serviceEnumerate env arn ctx = Except.ok out → out.ctx = ctx := by
  intro ctx out h
  unfold serviceEnumerate at h
  cases hm : serviceMatches env arn ctx with
  | none => rw [hm] at h; cases h
  | some ms =>
    rw [hm] at h
    exact levelLoop_ok_ctx _ (regionEnumerate_ok_ctx env arn) ms ctx out h

theorem providerEnumerate_ok_ctx (env : Env) (arn : ArnData) :
    ∀ ctx out, providerEnumerate env arn ctx = Except.ok out → out.ctx = ctx := by
  intro ctx out h
  unfold providerEnumerate at h
  cases hm : providerMatches arn ctx with
  | none => rw [hm] at h; cases h
  | some ms =>
    rw [hm] at h
    exact levelLoop_ok_ctx _ (serviceEnumerate_ok_ctx env arn) ms ctx out h

theorem schemeEnumerate_ok_ctx (env : Env) (arn : ArnData) :
    ∀ ctx out, schemeEnumerate env arn ctx = Except.ok out → out.ctx = ctx := by
  intro ctx out h
  unfold schemeEnumerate at h
  cases hm : schemeMatches arn ctx with
  | none => rw [hm] at h; cases h
  | some ms =>
    rw [hm] at h
    exact levelLoop_ok_ctx _ (providerEnumerate_ok_ctx env arn) ms ctx out h

/-! ### Structural lemmas about the loops -/

theorem sublist_bind_of_mem {α β : Type} (f : α → List β) {l : List α} {a : α}
    (h : a ∈ l) : (f a).Sublist (l.flatMap f) := by
  induction l with
  | nil => cases h
  | cons x xs ih =>
    rcases List.mem_cons.mp h with rfl | h'
    · rw [List.flatMap_cons]
      exact List.sublist_append_left (f a) (xs.flatMap f)
    · refine (ih h').trans ?_
      rw [List.flatMap_cons]
      exact List.sublist_append_right (f x) (xs.flatMap f)

/-- The records one matched resource type contributes to the result of
`Resource.enumerate`: its backend's records when registered, nothing when
unresolvable. -/
def rtRecords (env : Env) (p sv r a : String) (rid : Option String) (rt : String) :
    List String :=
  match find_resource_class env (resourcePath p sv rt) with
  | none => []
  | some b =>
    match b.run r a rid with
    | Except.ok recs => recs
    | Except.error _ => []

/-- Closed form of the terminal fan-out when every registered backend of a
matched type succeeds: the records of the matched types concatenated in
match order, and one report per unresolvable matched type. -/
theorem resourceLoop_char (env : Env) (p sv r a : String) (rid : Option String) :
    ∀ rts : List String,
      (∀ rt ∈ rts, ∀ b, find_resource_class env (resourcePath p sv rt) = some b →
        ∃ recs, b.run r a rid = Except.ok recs) →
      resourceLoop env p sv r a rid rts = Except.ok
        (rts.flatMap (rtRecords env p sv r a rid),
         (rts.filter
            (fun rt => (find_resource_class env (resourcePath p sv rt)).isNone)).map
           (fun rt => unresolvableReport (resourcePath p sv rt))) := by
  intro rts
  induction rts with
  | nil => intro _; simp [resourceLoop]
  | cons rt rest ih =>
    intro hok
    have hrest := fun x hx => hok x (List.mem_cons_of_mem rt hx)
    cases hf : find_resource_class env (resourcePath p sv rt) with
    | none =>
      simp only [resourceLoop, hf, ih hrest, List.flatMap_cons, rtRecords,
        List.filter_cons, List.map_cons, hf]
      simp [rtRecords, hf]
    | some b =>
      obtain ⟨recs, hrecs⟩ := hok rt (List.mem_cons_self rt rest) b hf
      simp only [resourceLoop, hf, hrecs, ih hrest, List.flatMap_cons,
        List.filter_cons]
      simp [rtRecords, hf, hrecs]

/-- Inversion of one step of the push/recurse/pop loop: a successful loop
over `m :: rest` consists of a successful call of the next level on the
extended context followed by a successful loop over `rest`. -/
theorem levelLoop_cons_ok (next : List String → Except (List String) EnumOk)
    (m : String) (rest ctx : List String) (out : EnumOk)
    (h : levelLoop next (m :: rest) ctx = Except.ok out) :
    ∃ o1 o2, next (ctx ++ [m]) = Except.ok o1 ∧
      levelLoop next rest o1.ctx.dropLast = Except.ok o2 ∧
      out = ⟨o1.resources ++ o2.resources, o1.reports ++ o2.reports, o2.ctx⟩ := by
  simp only [levelLoop] at h
  rcases hn : next (ctx ++ [m]) with e | o1
  · rw [hn] at h; cases h
  · simp only [hn] at h
    rcases hl : levelLoop next rest o1.ctx.dropLast with e | o2
    · rw [hl] at h; cases h
    · simp only [hl] at h
      cases h
      exact ⟨o1, o2, rfl, hl, rfl⟩

theorem levelLoop_nil (next : List String → Except (List String) EnumOk)
    (ctx : List String) : levelLoop next [] ctx = Except.ok ⟨[], [], ctx⟩ := rfl

theorem string_mk_toList (s : String) : String.mk s.toList = s := by
  cases s; rfl

/-! ## Concrete instantiations used by the witnesses -/

/-- A small healthy environment: one provider with two services, one
resource type, one account, and a registry whose backends succeed,
producing one record naming the resolved path and region. -/
def envW : Env where
  all_services := fun _ => ["svcA", "svcB"]
  all_types := fun _ _ => ["bucket"]
  accounts := ["111"]
  registry := fun path => some ⟨fun r _a _rid => Except.ok [path ++ "@" ++ r]⟩

/-- A locator whose region pattern selects a single region and whose
other patterns are wildcards. -/
def arnW : ArnData := ⟨"*", "*", "*", "us-west-2", "*", "*", none⟩

/-- The outcome of fully enumerating `arnW` against `envW`. -/
def outW : EnumOk :=
  ⟨["aws.svcA.bucket@us-west-2", "aws.svcB.bucket@us-west-2"], [], []⟩

/-- The all-wildcard locator. -/
def arnStar : ArnData := ⟨"*", "*", "*", "*", "*", "*", none⟩

/-- An environment whose backends always raise. -/
def envErr : Env where
  all_services := fun _ => ["svcX"]
  all_types := fun _ _ => ["bucket"]
  accounts := ["111"]
  registry := fun _ => some ⟨fun _ _ _ => Except.error ()⟩

/-- An environment with two resource types of which only `bucket` has a
registered backend. -/
def envC3 : Env where
  all_services := fun _ => ["s3"]
  all_types := fun _ _ => ["bucket", "table"]
  accounts := ["111"]
  registry := fun path =>
    if path = "aws.s3.bucket" then some ⟨fun _ _ _ => Except.ok ["b1"]⟩ else none

/-- The context observed after a successful empty loop is the input
context. -/
theorem levelLoop_nil_ok (next : List String → Except (List String) EnumOk)
    (ctx : List String) (p : EnumOk) (h : levelLoop next [] ctx = Except.ok p) :
    p = ⟨[], [], ctx⟩ := by
  rw [levelLoop_nil] at h
  cases h
  rfl

/-- A locator whose service pattern is `iam`, one of the keys of the
restricted-region table. -/
def arnIam : ArnData := ⟨"arn", "aws", "iam", "*", "*", "*", none⟩

/-! ## The claims -/

/-- Claim C1, amended.  For every level component, after a call to that
level's `enumerate` whose returned sequence is consumed to completion
without an error from a deeper level — including when a level has zero
matches — the length of the shared context stack returns to exactly its
pre-call value.  (When a deeper level raises, the pops are skipped and
the context is left longer; see the counterexample.) -/
theorem c1_context_length_restored (env : Env) (arn : ArnData) (ctx : List String) :
    (∀ out, schemeEnumerate env arn ctx = Except.ok out → out.ctx.length = ctx.length) ∧
    (∀ out, providerEnumerate env arn ctx = Except.ok out → out.ctx.length = ctx.length) ∧
    (∀ out, serviceEnumerate env arn ctx = Except.ok out → out.ctx.length = ctx.length) ∧
    (∀ out, regionEnumerate env arn ctx = Except.ok out → out.ctx.length = ctx.length) ∧
    (∀ out, accountEnumerate env arn ctx = Except.ok out → out.ctx.length = ctx.length) ∧
    (∀ out, resourceEnumerate env arn ctx = Except.ok out → out.ctx.length = ctx.length) :=
  ⟨fun out h => congrArg List.length (schemeEnumerate_ok_ctx env arn ctx out h),
   fun out h => congrArg List.length (providerEnumerate_ok_ctx env arn ctx out h),
   fun out h => congrArg List.length (serviceEnumerate_ok_ctx env arn ctx out h),
   fun out h => congrArg List.length (regionEnumerate_ok_ctx env arn ctx out h),
   fun out h => congrArg List.length (accountEnumerate_ok_ctx env arn ctx out h),
   fun out h => congrArg List.length (resourceEnumerate_ok_ctx env arn ctx out h)⟩

/-- Claim C1 witness: a complete traversal against the healthy
environment leaves the context at its pre-call length. -/
theorem c1_witness :
    schemeEnumerate envW arnW [] = Except.ok outW ∧
    outW.ctx.length = ([] : List String).length :=
  ⟨rfl, (c1_context_length_restored envW arnW []).1 outW rfl⟩

/-- Claim C1 counterexample: the generators have no `try/finally`, so when
the `Resource` level raises (here: the registered backend raises), the
`context.pop()` of `Account.enumerate` is skipped and the shared context
is left at length 5 although it had length 4 before the call — the
context length does not return to its pre-call value on the error exit
path the claim includes. -/
theorem c1_counterexample :
    accountEnumerate envErr arnStar ["arn", "aws", "svcX", "us-east-1"] =
      Except.error ["arn", "aws", "svcX", "us-east-1", "111"] ∧
    (["arn", "aws", "svcX", "us-east-1", "111"] : List String).length ≠
      (["arn", "aws", "svcX", "us-east-1"] : List String).length :=
  ⟨rfl, by decide⟩

/-- Claim C2, evaluated at the failing input.  `split(':', 6)` performs up
to six splits and therefore yields up to seven tokens, not "at most six":
on the seven-token input `"a:b:c:d:e:f:g"` the `zip_longest` pads the
six-element class list with the fill value `'*'` and `c(n, self)` raises
`TypeError`, so no locator with exactly six components is built. -/
theorem c2_seven_token_failing_input :
    (pySplitLimit ':' 6 ("a:b:c:d:e:f:g".toList)).length = 7 ∧
    buildComponents "a:b:c:d:e:f:g" = none :=
  ⟨rfl, rfl⟩

/-- Claim C3.  When `Resource.enumerate` meets matched resource types
without a registered backend, each such type is reported as a distinct
"unresolvable resource type" condition, and the registered sibling
resource types are still enumerated — their backends' records all appear
in the result (provided those backends themselves succeed). -/
theorem c3_unresolvable_reported (env : Env) (arn : ArnData)
    (s p sv r a : String) (rts : List String)
    (hm : resourceMatches env arn [s, p, sv, r, a] = some rts)
    (hok : ∀ rt ∈ rts, ∀ b, find_resource_class env (resourcePath p sv rt) = some b →
      ∃ recs, b.run r a (Resource.split_resource arn.resource).2 = Except.ok recs) :
    ∃ out, resourceEnumerate env arn [s, p, sv, r, a] = Except.ok out ∧
      (∀ rt ∈ rts, find_resource_class env (resourcePath p sv rt) = none →
        unresolvableReport (resourcePath p sv rt) ∈ out.reports) ∧
      (∀ rt ∈ rts, ∀ b recs, find_resource_class env (resourcePath p sv rt) = some b →
        b.run r a (Resource.split_resource arn.resource).2 = Except.ok recs →
        recs.Sublist out.resources) := by
  have hloop := resourceLoop_char env p sv r a (Resource.split_resource arn.resource).2 rts hok
  refine ⟨⟨rts.flatMap (rtRecords env p sv r a (Resource.split_resource arn.resource).2),
    (rts.filter (fun rt => (find_resource_class env (resourcePath p sv rt)).isNone)).map
      (fun rt => unresolvableReport (resourcePath p sv rt)), [s, p, sv, r, a]⟩, ?_, ?_, ?_⟩
  · simp only [resourceEnumerate, hm, hloop]
  · intro rt hrt hnone
    exact List.mem_map_of_mem _
      (List.mem_filter.mpr ⟨hrt, by simp [hnone]⟩)
  · intro rt hrt b recs hb hrecs
    have : rtRecords env p sv r a (Resource.split_resource arn.resource).2 rt = recs := by
      simp [rtRecords, hb, hrecs]
    exact this ▸ sublist_bind_of_mem _ hrt

/-- Claim C3 witness: against `envC3` the matched types are `bucket`
(registered, one record `b1`) and `table` (unregistered); the traversal
succeeds, reports `table` as unresolvable, and still delivers `b1`. -/
theorem c3_witness :
    ∃ out, resourceEnumerate envC3 arnStar ["arn", "aws", "s3", "us-east-1", "111"] =
      Except.ok out ∧
      unresolvableReport "aws.s3.table" ∈ out.reports ∧
      ["b1"].Sublist out.resources := by
  have hok : ∀ rt ∈ (["bucket", "table"] : List String), ∀ b,
      find_resource_class envC3 (resourcePath "aws" "s3" rt) = some b →
      ∃ recs, b.run "us-east-1" "111" (Resource.split_resource arnStar.resource).2 =
        Except.ok recs := by
    intro rt hrt b hb
    rcases List.mem_cons.mp hrt with h | h
    · subst h
      have hb' : some (⟨fun _ _ _ => Except.ok ["b1"]⟩ : Backend) = some b := hb
      cases hb'
      exact ⟨["b1"], rfl⟩
    · have h' : rt = "table" := by simpa using h
      subst h'
      cases hb
  obtain ⟨out, h1, h2, h3⟩ := c3_unresolvable_reported envC3 arnStar
    "arn" "aws" "s3" "us-east-1" "111" ["bucket", "table"] rfl hok
  exact ⟨out, h1, h2 "table" (by simp) rfl,
    h3 "bucket" (by simp) ⟨fun _ _ _ => Except.ok ["b1"]⟩ ["b1"] rfl rfl⟩

/-- Claim C4, evaluated at the failing input.  With no context,
`Region.choices` stores `self._arn.service` — the `Service` component
object, not its `.pattern` string — and uses it as the lookup key, so the
`.get` on the string-keyed table always returns the default full region
list: for a locator whose service pattern is `iam` the code returns the
full list even though the table maps `"iam"` to the restricted
no-region list. -/
theorem c4_object_key_lookup_misses :
    Region.choices arnIam none = some Region.all_region_names ∧
    pyDictGet Region.service_region_map (PyVal.str "iam") Region.all_region_names =
      Region.no_region_required ∧
    Region.no_region_required ≠ Region.all_region_names :=
  ⟨rfl, rfl, by decide⟩

/-- Claim C5.  `match` keeps, in their original order, exactly the
candidates of `choices(context)` on which a regular-expression substring
search with the pattern succeeds; the literal pattern `*` matches every
candidate; for a pattern of plain characters the search succeeds exactly
when the pattern occurs contiguously inside the candidate (substring, not
full-match) — in particular `east` matches `us-east-1` but not
`eu-west-1`. -/
theorem c5_match_substring_search (cs : List String) (pattern : String) :
    componentMatch cs "*" = some cs ∧
    (∀ r, reCompile pattern = some r →
      componentMatch cs pattern = some (cs.filter (fun c => reSearch r c))) ∧
    (pattern.toList.all plainChar = true →
      reCompile pattern = some (litRegex pattern.toList) ∧
      ∀ c : String, reSearch (litRegex pattern.toList) c = true ↔
        ∃ t₁ t₂, c.toList = t₁ ++ pattern.toList ++ t₂) ∧
    componentMatch ["us-east-1", "eu-west-1", "sa-east-1"] "east" =
      some ["us-east-1", "sa-east-1"] := by
  refine ⟨componentMatch_star cs, ?_, ?_, rfl⟩
  · intro r hr
    by_cases hp : pattern = "*"
    · subst hp
      have hnone : reCompile "*" = none := rfl
      rw [hnone] at hr
      cases hr
    · simp only [componentMatch, if_neg hp, hr, Option.map_some']
  · intro hplain
    exact ⟨reCompile_plain pattern hplain, fun c => reSearch_lit pattern.toList c⟩

/-- Claim C5 witness: the pattern `east` compiles to its literal token
list, filters the candidate list by substring search, and the search
succeeds on `us-east-1` via the explicit occurrence
`us-` ++ `east` ++ `-1`. -/
theorem c5_witness :
    componentMatch ["us-east-1"] "east" =
      some (["us-east-1"].filter (fun c => reSearch (litRegex "east".toList) c)) ∧
    reSearch (litRegex "east".toList) "us-east-1" = true := by
  have h := c5_match_substring_search ["us-east-1"] "east"
  refine ⟨h.2.1 (litRegex "east".toList) rfl, ?_⟩
  exact ((h.2.2.1 rfl).2 "us-east-1").mpr ⟨"us-".toList, "-1".toList, rfl⟩

/-- Claim C6.  Resource-pattern splitting tries `/` first, then `:`, else
the whole pattern is the type with no id — `bucket/my-bucket`,
`queue:my-queue` and `topic` split as claimed, `a:b/c` shows `/` is tried
first — and `Resource.match` matches only the resource-type portion of
its pattern against the candidates. -/
theorem c6_resource_split (cs : List String) (pat : String) :
    Resource.split_resource "bucket/my-bucket" = ("bucket", some "my-bucket") ∧
    Resource.split_resource "queue:my-queue" = ("queue", some "my-queue") ∧
    Resource.split_resource "topic" = ("topic", none) ∧
    Resource.split_resource "a:b/c" = ("a:b", some "c") ∧
    ('/' ∉ pat.toList → ':' ∉ pat.toList → Resource.split_resource pat = (pat, none)) ∧
    Resource.matchFn cs pat = componentMatch cs (Resource.split_resource pat).1 := by
  refine ⟨rfl, rfl, rfl, rfl, ?_, rfl⟩
  intro h1 h2
  simp [Resource.split_resource, show '/' ∉ pat.data from h1, show ':' ∉ pat.data from h2]

/-- Claim C6 witness: a pattern without either separator is all
resource-type. -/
theorem c6_witness :
    Resource.split_resource "vpc" = ("vpc", none) ∧
    Resource.matchFn ["vpc"] "vpc" =
      componentMatch ["vpc"] (Resource.split_resource "vpc").1 := by
  have h := c6_resource_split ["vpc"] "vpc"
  exact ⟨h.2.2.2.2.1 (by decide) (by decide), h.2.2.2.2.2⟩

/-- Claim C7.  With a context whose index 2 holds the service value,
`Region.choices` returns exactly the table's restricted list when that
service is a key of the static service-to-region table, and exactly the
full known region list when it is not. -/
theorem c7_region_choices_with_context (arn : ArnData) (ctx : List String) (sv : String)
    (h : ctx[2]? = some sv) :
    (∀ rs, (sv, rs) ∈ Region.service_region_map →
      Region.choices arn (some ctx) = some rs) ∧
    (sv ∉ Region.service_region_map.map Prod.fst →
      Region.choices arn (some ctx) = some Region.all_region_names) := by
  rcases ctx with _ | ⟨x, xs⟩
  · cases h
  · constructor
    · intro rs hmem
      simp only [Region.choices, h, Option.map_some', Option.some.injEq]
      simp only [Region.service_region_map, List.mem_cons, List.not_mem_nil, or_false,
        Prod.mk.injEq] at hmem
      rcases hmem with ⟨h1, h2⟩ | ⟨h1, h2⟩ | ⟨h1, h2⟩ | ⟨h1, h2⟩ | ⟨h1, h2⟩ | ⟨h1, h2⟩ <;>
        subst h1 <;> subst h2 <;> rfl
    · intro hnk
      simp only [Region.choices, h, Option.map_some', Option.some.injEq]
      have hfind : Region.service_region_map.find? (fun p => decide (p.1 = sv)) = none := by
        apply List.find?_eq_none.mpr
        intro p hp
        simp only [decide_eq_true_eq]
        intro hps
        exact hnk (hps ▸ List.mem_map_of_mem Prod.fst hp)
      simp [pyDictGet, hfind]

/-- Claim C7 witness: `redshift` is a key of the table and receives its
restricted list; `ec2` is not a key and receives the full list. -/
theorem c7_witness :
    Region.choices arnStar (some ["arn", "aws", "redshift"]) =
      some Region.region_names_limited ∧
    Region.choices arnStar (some ["arn", "aws", "ec2"]) =
      some Region.all_region_names := by
  have h1 := c7_region_choices_with_context arnStar ["arn", "aws", "redshift"] "redshift" rfl
  have h2 := c7_region_choices_with_context arnStar ["arn", "aws", "ec2"] "ec2" rfl
  exact ⟨h1.1 Region.region_names_limited (by decide), h2.2 (by decide)⟩

/-- Claim C8 counterexample: the pattern `**` is a `re.compile` error
("nothing to repeat"), raised before `choices` is consulted, so `match`
with this pattern raises even though the candidate set is empty — it does
not return the empty list. -/
theorem c8_counterexample : componentMatch [] "**" ≠ some [] := by decide

/-- Claim C8, amended.  For every pattern that compiles as a regular
expression — in particular for the wildcard `*` — `match` over an empty
candidate set returns the empty list and raises no error; a pattern whose
compilation fails raises even when the candidate set is empty. -/
theorem c8_empty_choices_empty_match (pattern : String) :
    componentMatch [] "*" = some [] ∧
    (∀ r, reCompile (if pattern = "*" then ".*" else pattern) = some r →
      componentMatch [] pattern = some []) := by
  refine ⟨componentMatch_star [], ?_⟩
  intro r hr
  simp only [componentMatch, hr, Option.map_some', List.filter_nil]

/-- Claim C8 witness: the compiling pattern `east` over an empty
candidate set yields the empty match list. -/
theorem c8_witness : componentMatch [] "east" = some [] :=
  (c8_empty_choices_empty_match "east").2 (litRegex "east".toList) rfl

/-- Claim C9.  The top-level enumeration is depth-first and left-to-right:
when the scheme and provider levels match their single choices, the
service level matches `[s1, s2]`, and the region level matches `[r1]`
under either service, the produced record sequence is exactly the records
of the `s1` branch followed by the records of the `s2` branch — every
record produced under `s1` appears before every record produced under
`s2`. -/
theorem c9_depth_first_order (env : Env) (arn : ArnData) (s1 s2 r1 : String) (out : EnumOk)
    (hSch : schemeMatches arn [] = some ["arn"])
    (hProv : providerMatches arn ["arn"] = some ["aws"])
    (hSvc : serviceMatches env arn ["arn", "aws"] = some [s1, s2])
    (hR1 : regionMatches arn ["arn", "aws", s1] = some [r1])
    (hR2 : regionMatches arn ["arn", "aws", s2] = some [r1])
    (hiter : arnIter env arn = Except.ok out) :
    ∃ o1 o2, accountEnumerate env arn ["arn", "aws", s1, r1] = Except.ok o1 ∧
      accountEnumerate env arn ["arn", "aws", s2, r1] = Except.ok o2 ∧
      out.resources = o1.resources ++ o2.resources := by
  simp only [arnIter, schemeEnumerate, hSch] at hiter
  obtain ⟨p1, p2, hp1, hp2, hout⟩ := levelLoop_cons_ok _ _ _ _ _ hiter
  have hp2' := levelLoop_nil_ok _ _ _ hp2
  simp only [List.nil_append] at hp1
  simp only [providerEnumerate, hProv] at hp1
  obtain ⟨q1, q2, hq1, hq2, hpout⟩ := levelLoop_cons_ok _ _ _ _ _ hp1
  have hq2' := levelLoop_nil_ok _ _ _ hq2
  have hq1ctx : (["arn"] ++ ["aws"] : List String) = ["arn", "aws"] := rfl
  rw [hq1ctx] at hq1
  simp only [serviceEnumerate, hSvc] at hq1
  obtain ⟨u1, u2, hu1, hu2, hqout⟩ := levelLoop_cons_ok _ _ _ _ _ hq1
  have hu1ctx : (["arn", "aws"] ++ [s1] : List String) = ["arn", "aws", s1] := rfl
  rw [hu1ctx] at hu1
  have hu1c : u1.ctx = ["arn", "aws", s1] := regionEnumerate_ok_ctx env arn _ _ hu1
  rw [hu1c] at hu2
  have hdrop : (["arn", "aws", s1] : List String).dropLast = ["arn", "aws"] := rfl
  rw [hdrop] at hu2
  obtain ⟨v1, v2, hv1, hv2, huout⟩ := levelLoop_cons_ok _ _ _ _ _ hu2
  have hv2' := levelLoop_nil_ok _ _ _ hv2
  have hv1ctx : (["arn", "aws"] ++ [s2] : List String) = ["arn", "aws", s2] := rfl
  rw [hv1ctx] at hv1
  -- descend from the region level into the account level, per service
  simp only [regionEnumerate, hR1] at hu1
  obtain ⟨o1, o1r, ho1, ho1r, hu1out⟩ := levelLoop_cons_ok _ _ _ _ _ hu1
  have ho1r' := levelLoop_nil_ok _ _ _ ho1r
  have ho1ctx : (["arn", "aws", s1] ++ [r1] : List String) = ["arn", "aws", s1, r1] := rfl
  rw [ho1ctx] at ho1
  simp only [regionEnumerate, hR2] at hv1
  obtain ⟨o2, o2r, ho2, ho2r, hv1out⟩ := levelLoop_cons_ok _ _ _ _ _ hv1
  have ho2r' := levelLoop_nil_ok _ _ _ ho2r
  have ho2ctx : (["arn", "aws", s2] ++ [r1] : List String) = ["arn", "aws", s2, r1] := rfl
  rw [ho2ctx] at ho2
  refine ⟨o1, o2, ho1, ho2, ?_⟩
  subst hout hpout hqout huout hu1out hv1out
  subst hp2' hq2' hv2' ho1r' ho2r'
  simp

/-- Claim C9 witness: with services `svcA`, `svcB` and the single region
`us-west-2`, the full enumeration yields the `svcA` record before the
`svcB` record. -/
theorem c9_witness :
    ∃ o1 o2, accountEnumerate envW arnW ["arn", "aws", "svcA", "us-west-2"] = Except.ok o1 ∧
      accountEnumerate envW arnW ["arn", "aws", "svcB", "us-west-2"] = Except.ok o2 ∧
      outW.resources = o1.resources ++ o2.resources :=
  c9_depth_first_order envW arnW "svcA" "svcB" "us-west-2" outW rfl rfl rfl rfl rfl rfl

/-- Claim C10.  For every input of exactly six colon-separated tokens
(five `:` characters) containing no `|`, locator construction succeeds
and its string representation is the original input unchanged. -/
theorem c10_round_trip (s : String) (h6 : s.toList.count ':' = 5) (hq : '|' ∉ s.toList) :
    ∃ d, buildComponents s = some d ∧ arnRepr d = s := by
  have hsq : splitQuery s = some (s, none) := by
    simp [splitQuery, show '|' ∉ s.data from hq]
  have hlen : (pySplitLimit ':' 6 s.toList).length = 6 := by
    rw [length_pySplitLimit, h6]
    decide
  generalize htoks : pySplitLimit ':' 6 s.toList = toks at hlen
  have hjoin : joinSep ':' toks = s.toList := by
    rw [← htoks, joinSep_pySplitLimit]
  rcases toks with _ | ⟨t0, _ | ⟨t1, _ | ⟨t2, _ | ⟨t3, _ | ⟨t4, _ | ⟨t5, _ | ⟨t6, tl⟩⟩⟩⟩⟩⟩⟩ <;>
    simp at hlen
  refine ⟨⟨String.mk t0, String.mk t1, String.mk t2, String.mk t3, String.mk t4,
    String.mk t5, none⟩, ?_, ?_⟩
  · have htoks' : pySplitLimit ':' 6 s.data = [t0, t1, t2, t3, t4, t5] := htoks
    simp [buildComponents, hsq, htoks']
  · show String.mk (joinSep ':' [t0, t1, t2, t3, t4, t5]) = s
    rw [hjoin, string_mk_toList]

/-- Claim C10 witness: a six-token address string round-trips through
construction and representation. -/
theorem c10_witness :
    ∃ d, buildComponents "arn:aws:ec2:us-east-1:123456789012:instance" = some d ∧
      arnRepr d = "arn:aws:ec2:us-east-1:123456789012:instance" :=
  c10_round_trip "arn:aws:ec2:us-east-1:123456789012:instance" (by decide) (by decide)

end Skew
